import Mathlib

/-!
Verification of the expense tracker (src/app.py and src/create_db.py) as a
shallow embedding. The two SQLite tables are modelled as lists: the users
table as a list of (username, password hash) pairs and the expenses table as
a list of ExpenseRow records. Each SQL statement of app.py becomes the
corresponding pure list operation. The external sha256 hex digest of
hashlib is modelled as an explicit function parameter named sha256hex; the
one fact about it used anywhere is that a hex digest is a nonempty string,
taken as a hypothesis where needed. Amounts are stored in a REAL column and
entered as decimals; they are idealised as rationals.
-/

namespace ExpenseApp

/-- Calendar date, as stored in the expense_date DATE column. -/
structure Date where
  year : Nat
  month : Nat
  day : Nat
  deriving DecidableEq, Repr

/-- One row of the expenses table (create_db.py lines 21 to 31): id INTEGER
PRIMARY KEY AUTOINCREMENT, username, expense_date, category, amount REAL,
description. -/
structure ExpenseRow where
  id : Nat
  username : String
  expense_date : Date
  category : String
  amount : Rat
  description : String
  deriving DecidableEq, Repr

/-- make_hashes (app.py lines 18 to 19): the sha256 hex digest of the
password, with the digest function passed in explicitly. -/
def make_hashes (sha256hex : String → String) (password : String) : String :=
  sha256hex password

/-- check_hashes (app.py lines 21 to 24): returns the stored hash itself on a
match and False otherwise; the truthy or False return value is modelled as
an Option, with none standing for False. -/
def check_hashes (sha256hex : String → String) (password hashed_text : String) :
    Option String :=
  if make_hashes sha256hex password = hashed_text then some hashed_text else none

/-- add_userdata (app.py lines 27 to 32): INSERT INTO users(username,
password). The users table has PRIMARY KEY username (create_db.py line 15),
so the INSERT raises IntegrityError on a duplicate username, modelled as
none; otherwise the new row is appended. -/
def add_userdata (sha256hex : String → String) (users : List (String × String))
    (username password : String) : Option (List (String × String)) :=
  if users.any (fun r => decide (r.1 = username)) then none
  else some (users ++ [(username, make_hashes sha256hex password)])

/-- login_user (app.py lines 34 to 40): SELECT password FROM users WHERE
username matches, take the first row (scalar), and if that value is truthy
(a nonempty string) compare hashes via check_hashes; in every other case the
function returns False, modelled as none. -/
def login_user (sha256hex : String → String) (users : List (String × String))
    (username password : String) : Option String :=
  match users.find? (fun r => decide (r.1 = username)) with
  | some r => if r.2 = "" then none else check_hashes sha256hex password r.2
  | none => none

/-- add_expense (app.py lines 43 to 47): INSERT INTO expenses; the
AUTOINCREMENT primary key is supplied by the caller as nextId. -/
def add_expense (table : List ExpenseRow) (nextId : Nat) (username : String)
    (date : Date) (category : String) (amount : Rat) (description : String) :
    List ExpenseRow :=
  table ++ [⟨nextId, username, date, category, amount, description⟩]

/-- The non-admin projection of view_all_expenses: SELECT id, expense_date,
category, amount, description (app.py line 55), without the username
column. -/
structure UserViewRow where
  id : Nat
  expense_date : Date
  category : String
  amount : Rat
  description : String
  deriving DecidableEq, Repr

/-- The projection applied to each row the non-admin SELECT returns. -/
def projectUserView (r : ExpenseRow) : UserViewRow :=
  ⟨r.id, r.expense_date, r.category, r.amount, r.description⟩

/-- The two result shapes of view_all_expenses: the admin query keeps the
username column, the user query does not. -/
inductive ViewResult where
  | adminView (rows : List ExpenseRow)
  | userView (rows : List UserViewRow)
  deriving DecidableEq, Repr

/-- The rows of an admin result, or the empty list for a user result. -/
def ViewResult.adminRows : ViewResult → List ExpenseRow
  | .adminView rows => rows
  | .userView _ => []

/-- The rows of a user result, or the empty list for an admin result. -/
def ViewResult.userRows : ViewResult → List UserViewRow
  | .adminView _ => []
  | .userView rows => rows

/-- view_all_expenses (app.py lines 49 to 57): if is_admin, SELECT every
column of every row; otherwise SELECT the non-username columns of the rows
WHERE username matches the caller. -/
def view_all_expenses (table : List ExpenseRow) (username : String)
    (is_admin : Bool) : ViewResult :=
  if is_admin then .adminView table
  else .userView ((table.filter (fun r => decide (r.username = username))).map
    projectUserView)

/-- get_expense_by_id (app.py lines 59 to 62): SELECT * FROM expenses WHERE
id matches, first row or none. -/
def get_expense_by_id (table : List ExpenseRow) (expense_id : Nat) :
    Option ExpenseRow :=
  table.find? (fun r => decide (r.id = expense_id))

/-- The per-row effect of the UPDATE in edit_expense_data: a row whose id
matches gets the four supplied fields, its id and username untouched; every
other row is returned as it is. -/
def updRow (expense_id : Nat) (date : Date) (category : String) (amount : Rat)
    (description : String) (r : ExpenseRow) : ExpenseRow :=
  if r.id = expense_id then
    { r with expense_date := date, category := category, amount := amount,
             description := description }
  else r

/-- edit_expense_data (app.py lines 64 to 68): UPDATE expenses SET
expense_date, category, amount, description WHERE id matches. A row set in
which no id matches is returned unchanged; SQL signals nothing. -/
def edit_expense_data (table : List ExpenseRow) (expense_id : Nat) (date : Date)
    (category : String) (amount : Rat) (description : String) :
    List ExpenseRow :=
  table.map (updRow expense_id date category amount description)

/-- delete_data (app.py lines 70 to 73): DELETE FROM expenses WHERE id
matches; deleting an absent id removes nothing and signals nothing. -/
def delete_data (table : List ExpenseRow) (expense_id : Nat) :
    List ExpenseRow :=
  table.filter (fun r => decide (¬ r.id = expense_id))

/-- The distinct elements of a list. Pandas groupby emits its group keys in
sorted order; the key order is immaterial to every property stated below, so
only distinctness is modelled. -/
def uniqueKeys {α : Type} [DecidableEq α] : List α → List α
  | [] => []
  | a :: l => if a ∈ uniqueKeys l then uniqueKeys l else a :: uniqueKeys l

/-- The groupby category sum of amount computed inside
plot_expenses_by_category (app.py line 79) and plot_bar_chart_by_category
(app.py line 102): one pair per distinct category, carrying the sum of the
amount field over the rows of that category. -/
def category_summary (df : List ExpenseRow) : List (String × Rat) :=
  (uniqueKeys (df.map (·.category))).map (fun c =>
    (c, ((df.filter (fun r => decide (r.category = c))).map (·.amount)).sum))

/-- The monthly resample sum of amount computed inside
plot_expenses_over_time (app.py line 90): one pair per distinct calendar
month (year and month of the expense date), carrying the sum of amount over
the rows of that month. -/
def month_summary (df : List ExpenseRow) : List ((Nat × Nat) × Rat) :=
  (uniqueKeys (df.map (fun r => (r.expense_date.year, r.expense_date.month)))).map
    (fun m => (m, ((df.filter (fun r =>
      decide ((r.expense_date.year, r.expense_date.month) = m))).map
      (·.amount)).sum))

/-- A rendered matplotlib figure, reduced to the data series and title it
displays. -/
inductive Chart where
  | pie (data : List (String × Rat)) (title : String)
  | bar (data : List (String × Rat)) (title : String)
  | line (data : List ((Nat × Nat) × Rat)) (title : String)
  deriving DecidableEq, Repr

/-- plot_expenses_by_category (app.py lines 76 to 84): None on an empty row
set, otherwise a pie chart of the category sums. -/
def plot_expenses_by_category (df : List ExpenseRow) : Option Chart :=
  if df.isEmpty then none
  else some (.pie (category_summary df) "Expenses by Category")

/-- plot_expenses_over_time (app.py lines 86 to 97): None on an empty row
set, otherwise a line chart of the monthly sums. -/
def plot_expenses_over_time (df : List ExpenseRow) : Option Chart :=
  if df.isEmpty then none
  else some (.line (month_summary df) "Monthly Spending")

/-- plot_bar_chart_by_category (app.py lines 99 to 109): None on an empty
row set, otherwise a bar chart of the category sums; sort_values only
permutes the series, which the stated properties do not depend on. -/
def plot_bar_chart_by_category (df : List ExpenseRow) : Option Chart :=
  if df.isEmpty then none
  else some (.bar (category_summary df) "Spending per Category")

/-- Named colors defined as attributes of the reportlab.lib.colors module,
restricted to a subset that contains every name this program could look up:
grey, whitesmoke, beige and black are attributes of the module; the
misspelling whitesoke is not an attribute of the module. -/
def reportlabColorNames : List String :=
  ["transparent", "beige", "bisque", "black", "blue", "brown", "gray", "grey",
   "green", "red", "white", "whitesmoke", "yellow"]

/-- Attribute access on the reportlab.lib.colors module: a defined named
color is returned, and an undefined attribute raises AttributeError,
modelled as an error value. -/
def colorsAttr (name : String) : Except String String :=
  if name ∈ reportlabColorNames then Except.ok name
  else Except.error
    ("AttributeError: module reportlab.lib.colors has no attribute " ++ name)

/-- One command of the reportlab TableStyle, reduced to its command word and
the color it applies, when it applies one. -/
structure TableStyleCmd where
  cmd : String
  color : Option String
  deriving DecidableEq, Repr

/-- The document export_to_pdf builds, reduced to the title paragraph, the
table data (header row followed by the data rows) and the table style. -/
structure PdfDoc where
  title : String
  tableData : List (List String)
  style : List TableStyleCmd
  deriving DecidableEq, Repr

/-- export_to_pdf (app.py lines 118 to 145): choose the title from the admin
flag, prepend the column header row to the data rows, then build the
TableStyle; the style list evaluates the color attributes in source order
(grey, then the misspelt whitesoke, then beige, then black), and an
undefined attribute aborts the call with AttributeError. -/
def export_to_pdf (df_columns : List String) (df_rows : List (List String))
    (username : String) (is_admin : Bool) : Except String PdfDoc := do
  let title := if is_admin then "Full Company Expense Report"
    else "Expense Report for " ++ username
  let df_list := df_columns :: df_rows
  let headerBg ← colorsAttr "grey"
  let headerText ← colorsAttr "whitesoke"
  let bodyBg ← colorsAttr "beige"
  let gridColor ← colorsAttr "black"
  Except.ok
    { title := title
      tableData := df_list
      style := [⟨"BACKGROUND", some headerBg⟩, ⟨"TEXTCOLOR", some headerText⟩,
                ⟨"ALIGN", none⟩, ⟨"FONTNAME", none⟩, ⟨"BOTTOMPADDING", none⟩,
                ⟨"BACKGROUND", some bodyBg⟩, ⟨"GRID", some gridColor⟩] }

/-- The per-tab session state (app.py lines 160 to 163). -/
structure Session where
  logged_in : Bool
  username : String
  is_admin : Bool
  deriving DecidableEq, Repr

/-- The session as first initialised (app.py lines 160 to 163). -/
def initialSession : Session := ⟨false, "", false⟩

/-- The two accounts create_db.py seeds (lines 33 to 45): the privileged
account Itachibanker19 with password Killer1980, and the demo account. -/
def seededUsers (sha256hex : String → String) : List (String × String) :=
  [("Itachibanker19", sha256hex "Killer1980"),
   ("demo", sha256hex "demo123")]

/-- The Login button handler (app.py lines 169 to 178): on a successful
login_user the session becomes logged in under the given username, and the
admin flag is set exactly when the username is the literal admin; on a
failed login the session is unchanged. -/
def loginStep (sha256hex : String → String) (users : List (String × String))
    (st : Session) (username password : String) : Session :=
  match login_user sha256hex users username password with
  | some _ =>
    { logged_in := true, username := username,
      is_admin := if username = "admin" then true else st.is_admin }
  | none => st

/-- The whole application state: the two tables, the AUTOINCREMENT counter
of the expenses table, and the session. -/
structure AppState where
  users : List (String × String)
  expenses : List ExpenseRow
  nextId : Nat
  session : Session

/-- One user interaction main (app.py lines 148 to 273) can handle: the
Login button, the Logout button, the Add Expense form, the per-row Delete
button, and the edit form submit. -/
inductive UiEvent where
  | loginSubmit (username password : String)
  | logoutClick
  | addExpenseSubmit (date : Date) (category : String) (amount : Rat)
      (description : String)
  | deleteClick (expense_id : Nat)
  | editSaveSubmit (expense_id : Nat) (date : Date) (category : String)
      (amount : Rat) (description : String)

/-- The buttons rendered while the session is not logged in (app.py lines
165 to 178): a username field, a password field and the one Login button.
No signup control is rendered anywhere in main. -/
def anonymousActions : List String := ["Login"]

/-- The sidebar menu rendered while logged in (app.py line 181). -/
def authenticatedMenu : List String := ["Add Expense", "Summary", "Manage Records"]

/-- One step of main (app.py lines 148 to 273): when not logged in only the
Login form is rendered, so only loginSubmit changes anything; when logged
in, logout resets the session and the three screens insert, delete or
update expense rows. No branch writes to the users table. -/
def uiStep (sha256hex : String → String) (st : AppState) (e : UiEvent) :
    AppState :=
  if st.session.logged_in then
    match e with
    | .logoutClick => { st with session := ⟨false, "", false⟩ }
    | .addExpenseSubmit date category amount description =>
      { st with
        expenses := (add_expense st.expenses st.nextId st.session.username
          date category amount description),
        nextId := st.nextId + 1 }
    | .deleteClick expense_id =>
      { st with expenses := delete_data st.expenses expense_id }
    | .editSaveSubmit expense_id date category amount description =>
      { st with expenses := (edit_expense_data st.expenses expense_id date
          category amount description) }
    | .loginSubmit _ _ => st
  else
    match e with
    | .loginSubmit username password =>
      { st with session := (loginStep sha256hex st.users st.session username
          password) }
    | _ => st

/-- A concrete stand-in digest function used by the witnesses; the theorems
it instantiates hold for every digest function. -/
def shaW : String → String := fun _ => "Z"

/-- A concrete expense row used by the witnesses. -/
def rowW1 : ExpenseRow := ⟨1, "demo", ⟨2024, 1, 5⟩, "Food", 10, "lunch"⟩

/-- A second concrete expense row used by the witnesses. -/
def rowW2 : ExpenseRow := ⟨2, "demo", ⟨2024, 2, 1⟩, "Transport", 20, "bus"⟩

/-- A concrete expenses table used by the witnesses. -/
def tableW : List ExpenseRow := [rowW1, rowW2]

/-- A concrete one-row table used by the aggregation witness. -/
def dfW : List ExpenseRow := [rowW1]

/-- Case analysis of login_user: none when no row matches the username,
the stored hash when the stored hash is nonempty and equals the digest of
the password, and none when the digest differs from the stored hash. -/
theorem login_user_case_analysis (sha256hex : String → String)
    (users : List (String × String)) (u p : String) :
    (users.find? (fun r => decide (r.1 = u)) = none →
      login_user sha256hex users u p = none) ∧
    (∀ v h, users.find? (fun r => decide (r.1 = u)) = some (v, h) → h ≠ "" →
      sha256hex p = h → login_user sha256hex users u p = some h) ∧
    (∀ v h, users.find? (fun r => decide (r.1 = u)) = some (v, h) →
      sha256hex p ≠ h → login_user sha256hex users u p = none) := by
  refine ⟨?_, ?_, ?_⟩
  · intro hfind
    unfold login_user
    rw [hfind]
  · intro v h hfind hne hdig
    unfold login_user
    rw [hfind]
    simp [if_neg hne, check_hashes, make_hashes, hdig]
  · intro v h hfind hdig
    unfold login_user
    rw [hfind]
    by_cases hempty : h = ""
    · simp [hempty]
    · simp only [if_neg hempty, check_hashes, make_hashes, if_neg hdig]

/-- The update of edit_expense_data never changes the id of a row. -/
theorem updRow_id (expense_id : Nat) (date : Date) (category : String)
    (amount : Rat) (description : String) (r : ExpenseRow) :
    (updRow expense_id date category amount description r).id = r.id := by
  unfold updRow
  split <;> rfl

/-- Membership in uniqueKeys is membership in the original list. -/
theorem mem_uniqueKeys {α : Type} [DecidableEq α] (a : α) (l : List α) :
    a ∈ uniqueKeys l ↔ a ∈ l := by
  induction l generalizing a with
  | nil => simp [uniqueKeys]
  | cons b l ih =>
    by_cases hb : b ∈ uniqueKeys l
    · rw [show uniqueKeys (b :: l) = uniqueKeys l by
        simp only [uniqueKeys, if_pos hb]]
      constructor
      · exact fun h => List.mem_cons_of_mem _ ((ih a).mp h)
      · intro h
        rcases List.mem_cons.mp h with rfl | h
        · exact hb
        · exact (ih a).mpr h
    · rw [show uniqueKeys (b :: l) = b :: uniqueKeys l by
        simp only [uniqueKeys, if_neg hb]]
      constructor
      · intro h
        rcases List.mem_cons.mp h with rfl | h
        · exact List.mem_cons_self _ _
        · exact List.mem_cons_of_mem _ ((ih a).mp h)
      · intro h
        rcases List.mem_cons.mp h with rfl | h
        · exact List.mem_cons_self _ _
        · exact List.mem_cons_of_mem _ ((ih a).mpr h)

/-- After an update of the row carrying a present id, fetching that id
returns the row with the four supplied fields and the unchanged username of
the original row. -/
theorem get_after_edit (table : List ExpenseRow) (r : ExpenseRow) (i : Nat)
    (date : Date) (category : String) (amount : Rat) (description : String)
    (hnodup : (table.map (·.id)).Nodup) (hmem : r ∈ table) (hid : r.id = i) :
    get_expense_by_id (edit_expense_data table i date category amount description) i =
      some ⟨i, r.username, date, category, amount, description⟩ := by
  induction table with
  | nil => cases hmem
  | cons hd tl ih =>
    have hnodup2 : hd.id ∉ tl.map (·.id) ∧ (tl.map (·.id)).Nodup := by
      rw [List.map_cons] at hnodup
      exact List.nodup_cons.mp hnodup
    by_cases hhd : hd.id = i
    · have hr : r = hd := by
        rcases List.mem_cons.mp hmem with h | hmemtl
        · exact h
        · exfalso
          apply hnodup2.1
          rw [hhd, ← hid]
          exact List.mem_map.mpr ⟨r, hmemtl, rfl⟩
      subst hr
      have hupd : updRow i date category amount description r =
          ⟨i, r.username, date, category, amount, description⟩ := by
        unfold updRow
        rw [if_pos hhd]
        cases r
        simp only at hhd
        rw [hhd]
      unfold edit_expense_data get_expense_by_id
      rw [List.map_cons, hupd, List.find?_cons]
      simp
    · have hrtl : r ∈ tl := by
        rcases List.mem_cons.mp hmem with h | h
        · exact absurd (h ▸ hid) hhd
        · exact h
      have ihr := ih hnodup2.2 hrtl
      unfold edit_expense_data get_expense_by_id at ihr ⊢
      rw [List.map_cons, List.find?_cons,
        show (decide ((updRow i date category amount description hd).id = i)) = false by
          simp [updRow_id, hhd]]
      exact ihr

/-- C1: a non-admin call of view_all_expenses returns only rows that come
from a row of the table owned by the caller, and an admin call returns
exactly the rows of the whole table, username column included. -/
theorem view_all_expenses_owner_scoping (table : List ExpenseRow) (u : String) :
    (∀ v ∈ (view_all_expenses table u false).userRows,
      ∃ r ∈ table, r.username = u ∧ projectUserView r = v) ∧
    (∀ r : ExpenseRow, r ∈ (view_all_expenses table u true).adminRows ↔ r ∈ table) := by
  constructor
  · intro v hv
    simp only [view_all_expenses, if_neg Bool.false_ne_true, ViewResult.userRows,
      List.mem_map, List.mem_filter, decide_eq_true_eq] at hv
    obtain ⟨r, ⟨hr, hu⟩, hp⟩ := hv
    exact ⟨r, hr, hu, hp⟩
  · intro r
    simp [view_all_expenses, ViewResult.adminRows]

/-- C3 counterexample: the Anonymous state renders no SignUp control; the
only button of the login screen is Login. -/
theorem anonymous_state_offers_no_signup :
    ("SignUp" ∈ anonymousActions) = False := by
  simp [anonymousActions]

/-- C3 amended: from the Anonymous state the UI offers only the Login
transition, and no UI step ever writes to the users table, so user records
are created only at seed time. -/
theorem anonymous_actions_login_only_users_fixed :
    anonymousActions = ["Login"] ∧
    ∀ (sha256hex : String → String) (st : AppState) (e : UiEvent),
      (uiStep sha256hex st e).users = st.users := by
  refine ⟨rfl, ?_⟩
  intro sha256hex st e
  unfold uiStep
  split <;> cases e <;> rfl

/-- C5: export_to_pdf never returns a document; for every input it raises
AttributeError, because the TableStyle looks up the misspelt color
attribute whitesoke on reportlab.lib.colors. -/
theorem export_to_pdf_always_raises_attribute_error (df_columns : List String)
    (df_rows : List (List String)) (username : String) (is_admin : Bool) :
    export_to_pdf df_columns df_rows username is_admin =
      Except.error
        "AttributeError: module reportlab.lib.colors has no attribute whitesoke" := by
  rfl

/-- C10: login_user returns the stored hash string itself (a truthy value)
when the stored hash equals the digest of the supplied password, and
returns False, modelled as none, both when no record is stored under the
username and when the digest of the supplied password differs from the
stored hash; no case raises. -/
theorem login_user_returns_stored_hash_or_false (sha256hex : String → String)
    (users : List (String × String)) (u p : String) :
    (users.find? (fun r => decide (r.1 = u)) = none →
      login_user sha256hex users u p = none) ∧
    (∀ v h, users.find? (fun r => decide (r.1 = u)) = some (v, h) → h ≠ "" →
      sha256hex p = h → login_user sha256hex users u p = some h) ∧
    (∀ v h, users.find? (fun r => decide (r.1 = u)) = some (v, h) →
      sha256hex p ≠ h → login_user sha256hex users u p = none) :=
  login_user_case_analysis sha256hex users u p

/-- C4: after a successful add_userdata of a username and password, a
login_user with the same password succeeds and returns the stored digest,
and a login_user with any password whose digest differs from the stored
digest returns False, modelled as none. The one fact assumed about the
digest function is that the digest of the registered password is a nonempty
string, which holds of every sha256 hex digest. -/
theorem register_then_authenticate (sha256hex : String → String)
    (users users2 : List (String × String)) (u p : String)
    (hadd : add_userdata sha256hex users u p = some users2)
    (hne : sha256hex p ≠ "") :
    login_user sha256hex users2 u p = some (sha256hex p) ∧
    ∀ q, sha256hex q ≠ sha256hex p → login_user sha256hex users2 u q = none := by
  unfold add_userdata at hadd
  by_cases hdup : users.any (fun r => decide (r.1 = u)) = true
  · rw [if_pos hdup] at hadd
    exact absurd hadd (by simp)
  · rw [if_neg hdup] at hadd
    have husers2 : users2 = users ++ [(u, make_hashes sha256hex p)] :=
      (Option.some.injEq _ _ ▸ hadd).symm
    have hnotin : ∀ r ∈ users, ¬ (r.1 = u) := by
      intro r hr hru
      exact hdup (List.any_eq_true.mpr ⟨r, hr, decide_eq_true hru⟩)
    have hfind_users : users.find? (fun r => decide (r.1 = u)) = none :=
      List.find?_eq_none.mpr (fun r hr => by
        simpa using hnotin r hr)
    have hfind : users2.find? (fun r => decide (r.1 = u)) =
        some (u, make_hashes sha256hex p) := by
      rw [husers2, List.find?_append, hfind_users]
      simp [List.find?]
    constructor
    · exact (login_user_case_analysis sha256hex users2 u p).2.1
        u (make_hashes sha256hex p) hfind hne rfl
    · intro q hq
      exact (login_user_case_analysis sha256hex users2 u q).2.2
        u (make_hashes sha256hex p) hfind hq

/-- C4 witness: registering the user alice with a concrete digest function
and authenticating with the same password returns the stored digest. -/
theorem register_then_authenticate_witness :
    add_userdata shaW [] "alice" "pw1" = some [("alice", "Z")] ∧
    shaW "pw1" ≠ "" ∧
    login_user shaW [("alice", "Z")] "alice" "pw1" = some (shaW "pw1") :=
  ⟨rfl, by decide,
    (register_then_authenticate shaW [] [("alice", "Z")] "alice" "pw1" rfl
      (by decide)).1⟩

/-- C2: logging in with the seeded privileged account Itachibanker19 and
its fixed password succeeds, but the session admin flag stays false: the
admin check at login compares the username to the literal admin, which the
seeded privileged username does not satisfy. -/
theorem seeded_admin_login_no_admin_flag (sha256hex : String → String)
    (hdig : sha256hex "Killer1980" ≠ "") :
    (loginStep sha256hex (seededUsers sha256hex) initialSession
      "Itachibanker19" "Killer1980").logged_in = true ∧
    (loginStep sha256hex (seededUsers sha256hex) initialSession
      "Itachibanker19" "Killer1980").is_admin = false := by
  have hfind : (seededUsers sha256hex).find? (fun r => decide (r.1 = "Itachibanker19")) =
      some ("Itachibanker19", sha256hex "Killer1980") := by
    simp [seededUsers, List.find?]
  have hlogin : login_user sha256hex (seededUsers sha256hex) "Itachibanker19"
      "Killer1980" = some (sha256hex "Killer1980") :=
    (login_user_case_analysis sha256hex (seededUsers sha256hex)
      "Itachibanker19" "Killer1980").2.1 "Itachibanker19"
      (sha256hex "Killer1980") hfind hdig rfl
  unfold loginStep
  rw [hlogin]
  exact ⟨rfl, by simp [initialSession]⟩

/-- C2 witness: with a concrete digest function, the seeded privileged
account logs in and the admin flag is false. -/
theorem seeded_admin_login_no_admin_flag_witness :
    shaW "Killer1980" ≠ "" ∧
    (loginStep shaW (seededUsers shaW) initialSession
      "Itachibanker19" "Killer1980").logged_in = true ∧
    (loginStep shaW (seededUsers shaW) initialSession
      "Itachibanker19" "Killer1980").is_admin = false :=
  ⟨by decide, (seeded_admin_login_no_admin_flag shaW (by decide)).1,
    (seeded_admin_login_no_admin_flag shaW (by decide)).2⟩

/-- C6: updating or deleting an id that no row of the expenses table
carries completes without any error and leaves the table unchanged. -/
theorem update_delete_absent_id_noop (table : List ExpenseRow) (i : Nat)
    (date : Date) (category : String) (amount : Rat) (description : String)
    (habsent : ∀ r ∈ table, r.id ≠ i) :
    edit_expense_data table i date category amount description = table ∧
    delete_data table i = table := by
  constructor
  · unfold edit_expense_data
    have hrows : ∀ r ∈ table, updRow i date category amount description r = id r :=
      fun r hr => if_neg (habsent r hr)
    exact (List.map_congr_left hrows).trans (List.map_id table)
  · unfold delete_data
    exact List.filter_eq_self.mpr (fun r hr => decide_eq_true (habsent r hr))

/-- C6 witness: updating and deleting the absent id 99 on a concrete
two-row table changes nothing. -/
theorem update_delete_absent_id_noop_witness :
    (∀ r ∈ tableW, r.id ≠ 99) ∧
    (edit_expense_data tableW 99 ⟨2025, 1, 1⟩ "Bills" 5 "x" = tableW ∧
      delete_data tableW 99 = tableW) :=
  ⟨by decide,
    update_delete_absent_id_noop tableW 99 ⟨2025, 1, 1⟩ "Bills" 5 "x" (by decide)⟩

/-- C9: on an empty row set every chart function returns None instead of an
empty chart. -/
theorem plots_empty_input_none :
    plot_expenses_by_category [] = none ∧
    plot_expenses_over_time [] = none ∧
    plot_bar_chart_by_category [] = none :=
  ⟨rfl, rfl, rfl⟩

/-- C7: for a row present in a table whose primary key ids are distinct,
updating its id and then fetching that id returns a row whose four mutable
fields are the supplied values while its id and username are those of the
original row, and every row of another id is carried over unchanged, with
the table length preserved. -/
theorem update_then_get_roundtrip (table : List ExpenseRow) (r : ExpenseRow)
    (i : Nat) (date : Date) (category : String) (amount : Rat)
    (description : String) (hnodup : (table.map (·.id)).Nodup)
    (hmem : r ∈ table) (hid : r.id = i) :
    get_expense_by_id (edit_expense_data table i date category amount description) i =
      some ⟨i, r.username, date, category, amount, description⟩ ∧
    (∀ s ∈ table, s.id ≠ i →
      s ∈ edit_expense_data table i date category amount description) ∧
    (∀ s ∈ edit_expense_data table i date category amount description,
      s.id ≠ i → s ∈ table) ∧
    (edit_expense_data table i date category amount description).length =
      table.length := by
  refine ⟨get_after_edit table r i date category amount description hnodup hmem hid,
    ?_, ?_, ?_⟩
  · intro s hs hsid
    unfold edit_expense_data
    refine List.mem_map.mpr ⟨s, hs, ?_⟩
    unfold updRow
    exact if_neg hsid
  · intro s hs hsid
    unfold edit_expense_data at hs
    obtain ⟨t, ht, hts⟩ := List.mem_map.mp hs
    by_cases htid : t.id = i
    · exfalso
      apply hsid
      rw [← hts, updRow_id]
      exact htid
    · have : updRow i date category amount description t = t := by
        unfold updRow
        exact if_neg htid
      rw [← hts, this]
      exact ht
  · unfold edit_expense_data
    exact List.length_map _ _

/-- C7 witness: on a concrete two-row table with distinct ids, updating the
row of id 1 and fetching id 1 returns the new fields under the old id and
username. -/
theorem update_then_get_roundtrip_witness :
    ((tableW.map (·.id)).Nodup ∧ rowW1 ∈ tableW ∧ rowW1.id = 1) ∧
    get_expense_by_id (edit_expense_data tableW 1 ⟨2025, 3, 9⟩ "Bills" 99 "fixed") 1 =
      some ⟨1, "demo", ⟨2025, 3, 9⟩, "Bills", 99, "fixed"⟩ :=
  ⟨⟨by decide, List.Mem.head _, rfl⟩,
    (update_then_get_roundtrip tableW rowW1 1 ⟨2025, 3, 9⟩ "Bills" 99 "fixed"
      (by decide) (List.Mem.head _) rfl).1⟩

/-- C8: every pair the category summary emits carries exactly the sum of
the amounts of the rows of that category, a category absent from the input
never appears, and every category of the input appears. -/
theorem category_summary_sums (df : List ExpenseRow) (c : String) (s : Rat)
    (hmem : (c, s) ∈ category_summary df) :
    (s = ((df.filter (fun r => decide (r.category = c))).map (·.amount)).sum ∧
      ∃ r ∈ df, r.category = c) ∧
    (∀ r ∈ df, ∃ t, (r.category, t) ∈ category_summary df) := by
  constructor
  · unfold category_summary at hmem
    obtain ⟨k, hk, hpair⟩ := List.mem_map.mp hmem
    cases hpair
    have hk2 := (mem_uniqueKeys _ _).mp hk
    obtain ⟨r, hr, hcat⟩ := List.mem_map.mp hk2
    exact ⟨rfl, ⟨r, hr, hcat⟩⟩
  · intro r hr
    refine ⟨((df.filter (fun x => decide (x.category = r.category))).map
      (·.amount)).sum, ?_⟩
    unfold category_summary
    exact List.mem_map.mpr ⟨r.category,
      (mem_uniqueKeys _ _).mpr (List.mem_map.mpr ⟨r, hr, rfl⟩), rfl⟩

/-- C8 witness: on the concrete one-row table the summary contains the pair
of the Food category and the amount 10, and the theorem instantiates there. -/
theorem category_summary_sums_witness :
    (("Food", (10 : Rat)) ∈ category_summary dfW) ∧
    (((10 : Rat) = ((dfW.filter (fun r => decide (r.category = "Food"))).map
        (·.amount)).sum ∧
      ∃ r ∈ dfW, r.category = "Food") ∧
     (∀ r ∈ dfW, ∃ t, (r.category, t) ∈ category_summary dfW)) := by
  have hmem : ("Food", (10 : Rat)) ∈ category_summary dfW := by
    simp [category_summary, uniqueKeys, dfW, rowW1]
  exact ⟨hmem, category_summary_sums dfW "Food" 10 hmem⟩

end ExpenseApp
